import Mathlib

/-!
Shallow embedding of the experiment-lifecycle orchestration core of the
`openfl` experimental Director:

* `src/openfl/experimental/component/director/experiment.py`
  (`Status`, `Experiment`, `ExperimentsRegistry`), and
* `src/openfl/experimental/component/director/director.py`
  (`Director`).

Python dictionaries are embedded as association lists whose `aset`
operation prepends a binding (lookup sees the newest binding, which is
exactly the observable effect of a dict overwrite).  `asyncio` blocking
points (`queue.get`, the poll loop of `get_next_experiment`) are embedded
by making the corresponding operation yield `none` / a `blocked` outcome
when the Python coroutine would suspend.  Python exceptions are embedded
with `Except` / explicit outcome constructors.
-/

namespace OpenFLDirector

/-- Association-list lookup embedding a Python dict read:
the newest binding for a key wins. -/
def alookup {α : Type} : List (String × α) → String → Option α
  | [], _ => none
  | (k, v) :: rest, k2 => if k2 = k then some v else alookup rest k2

/-- Association-list write embedding a Python dict assignment `m[k] = v`:
the new binding shadows any older binding for `k`. -/
def aset {α : Type} (m : List (String × α)) (k : String) (v : α) :
    List (String × α) :=
  (k, v) :: m

/-- `Status` class of `experiment.py`: the experiment state machine's states. -/
inductive Status
  | pending
  | finished
  | inProgress
  | failed
  | rejected
deriving DecidableEq, Repr

/-- Modelled from the spec: the aggregator component
(`openfl/experimental/component/aggregator`) is not under `src/`; only its
use sites are.  The spec describes the data the director reads from it:
a current round counter and a total round count
("current round < total rounds, or equivalently status == IN_PROGRESS"). -/
structure Aggregator where
  current_round : Nat
  rounds_to_train : Nat
deriving DecidableEq, Repr

/-- `Experiment` object state (`experiment.py`).  The fields are the
attributes set in `Experiment.__init__` plus the `aggregator` attribute
assigned during `start`; the `run_aggregator_atask` attribute (an asyncio
task handle) is not modelled, no claim mentions it. -/
structure Experiment where
  name : String
  archive_path : String
  archive_data : String
  collaborators : List String
  plan_path : String
  status : Status
  aggregator : Option Aggregator
deriving DecidableEq, Repr

/-- `Experiment.__init__`: stores its arguments and starts the state
machine at `PENDING` with no aggregator. -/
def Experiment.init (name archive_path archive_data : String)
    (collaborators : List String) (plan_path : String) : Experiment :=
  { name := name
    archive_path := archive_path
    archive_data := archive_data
    collaborators := collaborators
    plan_path := plan_path
    status := Status.pending
    aggregator := none }

/-- `Experiment.start`: sets status to `IN_PROGRESS`, then runs the
workspace / aggregator-gRPC-server / `run_experiment` work (the execution
adapter, abstracted here as `adapterOutcome`: `Except.ok agg` when the
awaited work completes leaving aggregator `agg`, `Except.error msg` when
it raises).  The whole body is inside `try`/`except Exception`: on success
status becomes `FINISHED`; on any exception status becomes `FAILED` and
the exception is logged, not re-raised.  The second component is the
exception escaping `start` itself — always `none`, because the `except`
clause swallows every `Exception`. -/
def Experiment.start (e : Experiment) (adapterOutcome : Except String Aggregator) :
    Experiment × Option String :=
  match adapterOutcome with
  | Except.ok agg =>
      ({ e with status := Status.finished, aggregator := some agg }, none)
  | Except.error _ =>
      ({ e with status := Status.failed }, none)

/-- `ExperimentsRegistry` state (`experiment.py`): the private attributes
`__active_experiment_name`, `__pending_experiments`, `__archived_experiments`
and `__dict`.  `finish_active` inserts `__active_experiment_name` into the
archived list even when it is `None`, so the archived list holds
`Option String` exactly as the Python list holds possibly-`None` entries. -/
structure ExperimentsRegistry where
  active_experiment_name : Option String
  pending_experiments : List String
  archived_experiments : List (Option String)
  dict : List (String × Experiment)
deriving Repr

/-- `ExperimentsRegistry.__init__`. -/
def ExperimentsRegistry.init : ExperimentsRegistry :=
  { active_experiment_name := none
    pending_experiments := []
    archived_experiments := []
    dict := [] }

/-- `ExperimentsRegistry.add`: write the experiment into `__dict` (dict
overwrite on a duplicate name) and append its name to the pending queue. -/
def ExperimentsRegistry.add (r : ExperimentsRegistry) (e : Experiment) :
    ExperimentsRegistry :=
  { r with
    dict := aset r.dict e.name e
    pending_experiments := r.pending_experiments ++ [e.name] }

/-- `ExperimentsRegistry.__contains__`. -/
def ExperimentsRegistry.containsExp (r : ExperimentsRegistry) (k : String) : Bool :=
  (alookup r.dict k).isSome

/-- `ExperimentsRegistry.get` / `__getitem__` (as a total lookup). -/
def ExperimentsRegistry.getExp (r : ExperimentsRegistry) (k : String) :
    Option Experiment :=
  alookup r.dict k

/-- `ExperimentsRegistry.finish_active`: unconditionally insert the active
name at position 0 of the archived list (most-recent-first) and clear the
active slot. -/
def ExperimentsRegistry.finish_active (r : ExperimentsRegistry) :
    ExperimentsRegistry :=
  { r with
    archived_experiments := r.active_experiment_name :: r.archived_experiments
    active_experiment_name := none }

/-- One registry-level transition of `ExperimentsRegistry`, used to describe
the states reachable through `add` and the scoped acquisition
`get_next_experiment`.  `enter` is the context manager's entry (enabled
exactly when the `while` poll of `get_next_experiment` would break:
active slot empty and pending queue non-empty; it pops the head of the
pending queue and makes it active), `exit` is the `finally: finish_active()`
of an open scope.  A disabled op leaves the state unchanged (the coroutine
would still be suspended / the scope is not open). -/
inductive ROp
  | add (e : Experiment)
  | enter
  | exit

/-- Step function for `ROp`; the second component is the name yielded by a
successful `enter` (the name whose experiment object the context manager
yields via `self.active_experiment`). -/
def rstep (r : ExperimentsRegistry) : ROp → ExperimentsRegistry × Option String
  | ROp.add e => (r.add e, none)
  | ROp.enter =>
      match r.active_experiment_name, r.pending_experiments with
      | none, n :: rest =>
          ({ r with active_experiment_name := some n, pending_experiments := rest },
           some n)
      | _, _ => (r, none)
  | ROp.exit =>
      match r.active_experiment_name with
      | some _ => (r.finish_active, none)
      | none => (r, none)

/-- Run a sequence of registry ops, collecting the names yielded by the
successful acquisitions, in order. -/
def runOps (r : ExperimentsRegistry) : List ROp → ExperimentsRegistry × List String
  | [] => (r, [])
  | op :: ops =>
      let s := rstep r op
      let t := runOps s.1 ops
      (t.1, s.2.toList ++ t.2)

/-- Names submitted by the `add` ops of a sequence, in submission order. -/
def submittedNames : List ROp → List String
  | [] => []
  | ROp.add e :: ops => e.name :: submittedNames ops
  | ROp.enter :: ops => submittedNames ops
  | ROp.exit :: ops => submittedNames ops

/-- One envoy's record in the director's `_envoy_registry`
(the dict literal written by `Director.acknowledge_envoys`). -/
structure EnvoyRecord where
  is_online : Bool
  is_experiment_running : Bool
  last_updated : Nat
  valid_duration : Nat
deriving DecidableEq, Repr

/-- `Director` state (`director.py` `__init__`): the experiments registry,
the per-envoy current-assignment map `col_exp`, the per-envoy assignment
queues `col_exp_queues` (a `defaultdict(asyncio.Queue)`: a missing key
reads as an empty queue), the `_envoy_registry`, and the configured
`envoy_health_check_period`.  TLS/certificate paths, `director_config`,
`install_requirements` and `_flow_status` are plumbing no claim reads and
are not carried in the state. -/
structure Director where
  experiments_registry : ExperimentsRegistry
  col_exp : List (String × Option String)
  col_exp_queues : List (String × List String)
  envoy_registry : List (String × EnvoyRecord)
  envoy_health_check_period : Nat
deriving Repr

/-- `Director.__init__` with the default `envoy_health_check_period=60`. -/
def Director.init : Director :=
  { experiments_registry := ExperimentsRegistry.init
    col_exp := []
    col_exp_queues := []
    envoy_registry := []
    envoy_health_check_period := 60 }

/-- Read an envoy's assignment queue (`self.col_exp_queues[envoy_name]`,
a `defaultdict`: absent means a fresh empty queue). -/
def Director.queueOf (d : Director) (envoy_name : String) : List String :=
  (alookup d.col_exp_queues envoy_name).getD []

/-- `queue.put(experiment_name)` on one envoy's assignment queue. -/
def Director.pushAssignment (d : Director) (envoy_name experiment_name : String) :
    Director :=
  { d with
    col_exp_queues :=
      aset d.col_exp_queues envoy_name (d.queueOf envoy_name ++ [experiment_name]) }

/-- The fan-out in `start_experiment_execution_loop`:
`for col_name in experiment.collaborators: await queue.put(experiment.name)`. -/
def Director.pushToCollaborators (d : Director) (collaborators : List String)
    (experiment_name : String) : Director :=
  match collaborators with
  | [] => d
  | w :: ws => (d.pushAssignment w experiment_name).pushToCollaborators ws experiment_name

/-- `Director.acknowledge_envoys`: create/overwrite the envoy's record with
`is_online=True`, `is_experiment_running=False`, `last_updated=time.time()`
(passed in as `now`), `valid_duration = 2 * envoy_health_check_period`;
returns `True`. -/
def Director.acknowledge_envoys (d : Director) (envoy_name : String) (now : Nat) :
    Director × Bool :=
  ({ d with
     envoy_registry :=
       aset d.envoy_registry envoy_name
         { is_online := true
           is_experiment_running := false
           last_updated := now
           valid_duration := 2 * d.envoy_health_check_period } },
   true)

/-- `Director.update_envoy_status`: look the envoy up; if absent raise
`EnvoyNotFoundError("Unknown shard ...")`.  Otherwise update the record and
return `envoy_health_check_period`.  Note the source line
`shard_info["is_online"]: True` is a bare annotation, not an assignment,
so `is_online` is left untouched; only `is_experiment_running`,
`valid_duration` and `last_updated` are written. -/
def Director.update_envoy_status (d : Director) (envoy_name : String)
    (is_experiment_running : Bool) (now : Nat) : Except String (Director × Nat) :=
  match alookup d.envoy_registry envoy_name with
  | none => Except.error ("Unknown shard " ++ envoy_name)
  | some shard_info =>
      Except.ok
        ({ d with
           envoy_registry :=
             aset d.envoy_registry envoy_name
               { shard_info with
                 is_experiment_running := is_experiment_running
                 valid_duration := 2 * d.envoy_health_check_period
                 last_updated := now } },
         d.envoy_health_check_period)

/-- `Director.get_envoys`: the registered envoy names. -/
def Director.get_envoys (d : Director) : List String :=
  d.envoy_registry.map (fun p => p.1)

/-- Result of `Director.get_experiment_data` as the Python caller observes
it: a returned archive path, a returned `None`, or a raised error.  The
`raised` constructor is what a "typed NotFound failure" would be. -/
inductive GetDataResult
  | found (archive_path : String)
  | pyNone
  | raised (msg : String)
deriving DecidableEq, Repr

/-- `GetDataResult.raised`? -/
def GetDataResult.isRaised : GetDataResult → Bool
  | GetDataResult.raised _ => true
  | _ => false

/-- `Director.get_experiment_data`: inside `try`, an unknown name raises
`KeyError`, but the enclosing `except Exception` catches it, prints, and
returns `None`; a known name returns its `archive_path`.  The function
therefore never raises to its caller. -/
def Director.get_experiment_data (d : Director) (experiment_name : String) :
    GetDataResult :=
  match d.experiments_registry.getExp experiment_name with
  | none => GetDataResult.pyNone
  | some e => GetDataResult.found e.archive_path

/-- Keyword-only parameters of `Experiment.__init__` that have no default
(binding a call fails unless all of them are supplied). -/
def experimentInitRequiredKwargs : List String :=
  ["name", "archive_path", "archive_data", "collaborators"]

/-- All keyword parameters `Experiment.__init__` accepts. -/
def experimentInitAcceptedKwargs : List String :=
  ["name", "archive_path", "archive_data", "collaborators", "plan_path"]

/-- The keyword arguments `Director.set_new_experiment` passes to the
`Experiment(...)` call. -/
def setNewExperimentCallKwargs : List String :=
  ["name", "archive_path", "collaborators", "users", "sender", "plan_path"]

/-- Python keyword binding: every provided keyword must be accepted and
every required keyword must be provided, else the call raises `TypeError`
before the callee body runs. -/
def kwargsBindOk (provided accepted required : List String) : Bool :=
  provided.all (fun k => accepted.contains k) &&
    required.all (fun k => provided.contains k)

/-- `Director.set_new_experiment`: evaluates
`Experiment(name=..., archive_path=..., collaborators=..., users=[sender],
sender=sender, plan_path="plan/plan.yaml")`.  The call's keywords are bound
against `Experiment.__init__`'s parameters; if binding succeeded the
constructed `PENDING` experiment would be added to the registry and `True`
returned (the `archive_data` value in that branch is a placeholder: the
call provides none, which is exactly why binding fails).  Binding in fact
fails — `users` and `sender` are not parameters and `archive_data` is
missing — so the call raises `TypeError` before touching the registry. -/
def Director.set_new_experiment (d : Director) (experiment_name : String)
    (sender_name : String) (collaborator_names : List String)
    (experiment_archive_path : String) : Except String (Director × Bool) :=
  if kwargsBindOk setNewExperimentCallKwargs experimentInitAcceptedKwargs
      experimentInitRequiredKwargs then
    Except.ok
      ({ d with
         experiments_registry :=
           d.experiments_registry.add
             (Experiment.init experiment_name experiment_archive_path ""
               collaborator_names "plan/plan.yaml") },
       true)
  else
    Except.error
      "TypeError: Experiment.__init__ got an unexpected keyword argument users"

/-- Observable outcome of one `Director.wait_experiment(envoy_name)` call:
it returns a name (with the director state as mutated by the call), it
suspends on `await queue.get()` (state as mutated before the suspension),
or it raises (the fast path dereferences `experiment.aggregator`, which is
`None` until `start` has assigned it). -/
inductive WaitOutcome
  | returns (name : String) (d : Director)
  | blocked (d : Director)
  | raises (msg : String)

/-- Name returned by a `WaitOutcome`, if any. -/
def WaitOutcome.nameOf : WaitOutcome → Option String
  | WaitOutcome.returns n _ => some n
  | _ => none

/-- Did the call suspend? -/
def WaitOutcome.isBlocked : WaitOutcome → Bool
  | WaitOutcome.blocked _ => true
  | _ => false

/-- The tail of `Director.wait_experiment` after the fast path falls
through: `self.col_exp[envoy_name] = None`, then `await queue.get()` on
this envoy's queue — suspending while the queue is empty, else popping its
head and recording it in `col_exp`. -/
def Director.wait_slow (d : Director) (envoy_name : String) : WaitOutcome :=
  let d1 : Director := { d with col_exp := aset d.col_exp envoy_name none }
  match d1.queueOf envoy_name with
  | [] => WaitOutcome.blocked d1
  | n :: rest =>
      WaitOutcome.returns n
        { d1 with
          col_exp := aset d1.col_exp envoy_name (some n)
          col_exp_queues := aset d1.col_exp_queues envoy_name rest }

/-- `Director.wait_experiment`: fast path — `self.col_exp.get(envoy_name)`
(reads as `None` when absent or stored as `None`); if that name is truthy
(non-empty) and in the registry and the experiment's
`aggregator.current_round < aggregator.rounds_to_train`, return it at once
with no state change.  Otherwise fall to `wait_slow`. -/
def Director.wait_experiment (d : Director) (envoy_name : String) : WaitOutcome :=
  match (alookup d.col_exp envoy_name).getD none with
  | some experiment_name =>
      if experiment_name = "" then d.wait_slow envoy_name
      else
        match d.experiments_registry.getExp experiment_name with
        | some experiment =>
            match experiment.aggregator with
            | some agg =>
                if agg.current_round < agg.rounds_to_train then
                  WaitOutcome.returns experiment_name d
                else d.wait_slow envoy_name
            | none =>
                WaitOutcome.raises
                  "AttributeError: NoneType object has no attribute current_round"
        | none => d.wait_slow envoy_name
  | none => d.wait_slow envoy_name

/-- The scoped acquisition `ExperimentsRegistry.get_next_experiment`, run
around a caller body, in the state where its entry poll would break
(active slot free, pending queue non-empty): pop the pending head, set it
active, run the body on the yielded name, and — in `finally`, so on both a
normal body return and a body exception — run `finish_active`.  Returns
`none` when the entry poll would keep suspending. -/
def ExperimentsRegistry.get_next_experiment_scope (r : ExperimentsRegistry)
    (body : String → Except String Unit) :
    Option (Except String Unit × ExperimentsRegistry) :=
  match r.active_experiment_name, r.pending_experiments with
  | none, n :: rest =>
      let r1 : ExperimentsRegistry :=
        { r with active_experiment_name := some n, pending_experiments := rest }
      some (body n, r1.finish_active)
  | _, _ => none

/-- One iteration of `Director.start_experiment_execution_loop`: acquire
the next experiment through the registry's scoped acquisition (suspend —
`none` — while none is available); inside the scope, await
`experiment.start` (adapter outcome abstracted as `adapterOutcome`) and
push the experiment's name onto every collaborator's assignment queue; the
scope's `finally` archives the experiment.  The `except` clause of the
loop re-raises any exception from the body as
`Exception("Error while executing experiment: ...")` — the iteration's
second component, `none` when nothing propagates out of this iteration. -/
def Director.loop_iteration (d : Director)
    (adapterOutcome : Except String Aggregator) :
    Option (Director × Option String) :=
  match d.experiments_registry.active_experiment_name,
        d.experiments_registry.pending_experiments with
  | none, n :: rest =>
      let r1 : ExperimentsRegistry :=
        { d.experiments_registry with
          active_experiment_name := some n, pending_experiments := rest }
      match alookup r1.dict n with
      | none =>
          -- the `yield self.active_experiment` raises KeyError; the scope's
          -- `finally` still archives, then the loop's `except` re-raises
          some ({ d with experiments_registry := r1.finish_active },
                some "Error while executing experiment: KeyError")
      | some e =>
          let se := e.start adapterOutcome
          let r2 : ExperimentsRegistry := { r1 with dict := aset r1.dict n se.1 }
          let d1 : Director :=
            ({ d with experiments_registry := r2 }).pushToCollaborators
              e.collaborators e.name
          let d2 : Director :=
            { d1 with experiments_registry := d1.experiments_registry.finish_active }
          match se.2 with
          | some m =>
              some (d2, some ("Error while executing experiment: " ++ m))
          | none => some (d2, none)
  | _, _ => none

/-- Envoy-facing director operations, for traces over
`acknowledge_envoys` / `update_envoy_status` (the only writers of
`_envoy_registry`).  `time.time()` values are carried explicitly. -/
inductive EnvoyOp
  | ack (envoy_name : String) (now : Nat)
  | upd (envoy_name : String) (is_experiment_running : Bool) (now : Nat)

/-- Run a sequence of envoy operations; a raising `update_envoy_status`
leaves the director unchanged (the error goes to the RPC caller). -/
def runEnvoyOps (d : Director) : List EnvoyOp → Director
  | [] => d
  | EnvoyOp.ack w t :: ops => runEnvoyOps (d.acknowledge_envoys w t).1 ops
  | EnvoyOp.upd w b t :: ops =>
      match d.update_envoy_status w b t with
      | Except.ok p => runEnvoyOps p.1 ops
      | Except.error _ => runEnvoyOps d ops

/-- Was `envoy_name` ever acknowledged in the op sequence? -/
def ackedIn (envoy_name : String) : List EnvoyOp → Bool
  | [] => false
  | EnvoyOp.ack w _ :: ops => w = envoy_name || ackedIn envoy_name ops
  | EnvoyOp.upd _ _ _ :: ops => ackedIn envoy_name ops

/-- Is an `Except` the error case? -/
def isErr {ε α : Type} : Except ε α → Bool
  | Except.error _ => true
  | Except.ok _ => false

/-- The spec's registry invariant: an experiment name appears in at most
one of the pending queue, the active slot and the archived list. -/
structure AtMostOne (r : ExperimentsRegistry) : Prop where
  pending_not_active :
    ∀ n, n ∈ r.pending_experiments → r.active_experiment_name ≠ some n
  pending_not_archived :
    ∀ n, n ∈ r.pending_experiments → some n ∉ r.archived_experiments
  active_not_archived :
    ∀ n, r.active_experiment_name = some n → some n ∉ r.archived_experiments

/-- Inductive well-formedness of a registry state: the pending queue has
no duplicates, every tracked name has an entry in `__dict`, and the
spec's at-most-one invariant holds. -/
structure RegWF (r : ExperimentsRegistry) : Prop where
  nodupPending : r.pending_experiments.Nodup
  pendingKnown :
    ∀ n, n ∈ r.pending_experiments → (alookup r.dict n).isSome = true
  activeKnown :
    ∀ n, r.active_experiment_name = some n → (alookup r.dict n).isSome = true
  archivedKnown :
    ∀ n, some n ∈ r.archived_experiments → (alookup r.dict n).isSome = true
  atMostOne : AtMostOne r

/-- Every `add` in the op sequence submits a name the registry does not
already know (no duplicate submission). -/
def FreshAdds (r : ExperimentsRegistry) : List ROp → Prop
  | [] => True
  | op :: ops =>
      (match op with
       | ROp.add e => alookup r.dict e.name = none
       | ROp.enter => True
       | ROp.exit => True) ∧ FreshAdds (rstep r op).1 ops

/-- Modelled from the spec: the derived runtime coupling between an
experiment's status and its aggregator's round counters.  The aggregator
component (`openfl/experimental/component/aggregator`) is not under
`src/`; §4.2 of the spec describes `wait_experiment`'s fast-path guard as
"current round < total rounds, or equivalently status == IN_PROGRESS",
so the modelled aggregator of an experiment satisfies exactly this
equivalence. -/
def AggregatorReflectsStatus (ex : Experiment) (agg : Aggregator) : Prop :=
  (agg.current_round < agg.rounds_to_train) ↔ ex.status = Status.inProgress

/-- Concrete experiment fixture. -/
def expA : Experiment :=
  Experiment.init "expA" "/tmp/expA.tgz" "ARCHIVE-A" ["w1", "w2"] "plan/plan.yaml"

/-- Concrete experiment fixture. -/
def expB : Experiment :=
  Experiment.init "expB" "/tmp/expB.tgz" "ARCHIVE-B" ["w1"] "plan/plan.yaml"

/-- Concrete experiment fixture for the duplicate-submission scenario. -/
def expE : Experiment :=
  Experiment.init "expE" "/tmp/expE.tgz" "ARCHIVE-E" ["w1"] "plan/plan.yaml"

/-- Concrete in-progress experiment whose aggregator has completed 0 of 3
rounds. -/
def expRunning : Experiment :=
  { Experiment.init "e1" "/tmp/e1.tgz" "ARCHIVE-1" ["w1"] "plan/plan.yaml" with
    status := Status.inProgress
    aggregator := some { current_round := 0, rounds_to_train := 3 } }

/-- Concrete director whose envoy `w1` has `e1` recorded as its current
assignment, with `e1` in progress in the registry. -/
def directorWithAssignment : Director :=
  { Director.init with
    col_exp := [("w1", some "e1")]
    experiments_registry :=
      { ExperimentsRegistry.init with dict := [("e1", expRunning)] } }

/-- Concrete director with one pending experiment `expA`. -/
def directorWithPendingA : Director :=
  { Director.init with
    experiments_registry := ExperimentsRegistry.init.add expA }

/-- Concrete director with an acknowledged envoy whose heartbeat has since
marked it offline-like (`is_online := false`), to exercise the frame
property of `update_envoy_status`. -/
def directorWithOfflineEnvoy : Director :=
  { Director.init with
    envoy_registry :=
      [("w1",
        { is_online := false
          is_experiment_running := true
          last_updated := 5
          valid_duration := 120 })] }

/-! ## Theorems -/

theorem alookup_aset {α : Type} (m : List (String × α)) (k k2 : String) (v : α) :
    alookup (aset m k v) k2 = if k2 = k then some v else alookup m k2 := rfl

theorem alookup_aset_self {α : Type} (m : List (String × α)) (k : String) (v : α) :
    alookup (aset m k v) k = some v := by
  simp [alookup_aset]

theorem alookup_aset_other {α : Type} (m : List (String × α)) (k k2 : String)
    (v : α) (h : k2 ≠ k) : alookup (aset m k v) k2 = alookup m k2 := by
  simp [alookup_aset, h]

theorem alookup_aset_isSome {α : Type} (m : List (String × α)) (k k2 : String)
    (v : α) (h : (alookup m k2).isSome = true) :
    (alookup (aset m k v) k2).isSome = true := by
  by_cases hk : k2 = k
  · simp [alookup_aset, hk]
  · simpa [alookup_aset_other m k k2 v hk] using h

/-- The FIFO accounting invariant of the registry run: the names waiting in
the pending queue at the start, followed by all names subsequently
submitted, are exactly the names yielded by the acquisitions followed by
the names still pending at the end. -/
theorem runOps_fifo (ops : List ROp) :
    ∀ r : ExperimentsRegistry,
      r.pending_experiments ++ submittedNames ops =
        (runOps r ops).2 ++ (runOps r ops).1.pending_experiments := by
  induction ops with
  | nil => intro r; simp [runOps, submittedNames]
  | cons op ops ih =>
      intro r
      cases op with
      | add e =>
          have h := ih (r.add e)
          simp only [runOps, rstep, submittedNames, Option.toList]
          simp only [ExperimentsRegistry.add] at h ⊢
          rw [List.nil_append]
          calc r.pending_experiments ++ e.name :: submittedNames ops
              = (r.pending_experiments ++ [e.name]) ++ submittedNames ops := by
                simp
            _ = _ := h
      | enter =>
          cases hact : r.active_experiment_name with
          | some a =>
              have h := ih r
              simpa [runOps, rstep, hact, submittedNames] using h
          | none =>
              cases hpend : r.pending_experiments with
              | nil =>
                  have h := ih r
                  simpa [runOps, rstep, hact, hpend, submittedNames] using h
              | cons n rest =>
                  have h := ih { r with active_experiment_name := some n,
                                        pending_experiments := rest }
                  simp only [runOps, rstep, hact, hpend, submittedNames,
                    Option.toList] at h ⊢
                  rw [List.cons_append, h]
                  simp
      | exit =>
          cases hact : r.active_experiment_name with
          | some a =>
              have h := ih r.finish_active
              simpa [runOps, rstep, hact, submittedNames,
                ExperimentsRegistry.finish_active] using h
          | none =>
              have h := ih r
              simpa [runOps, rstep, hact, submittedNames] using h

/-- C3: for every sequence of `add` and scoped-acquisition operations
starting from the empty registry, the names yielded by the acquisitions
followed by the names still pending equal the names in submission order:
acquisitions dequeue in exactly FIFO submission order (each successful
acquisition pops the head of the pending queue — see `rstep`). -/
theorem c3_fifo_order (ops : List ROp) :
    submittedNames ops =
      (runOps ExperimentsRegistry.init ops).2 ++
        (runOps ExperimentsRegistry.init ops).1.pending_experiments := by
  have h := runOps_fifo ops ExperimentsRegistry.init
  simpa [ExperimentsRegistry.init] using h

/-- C2: whenever the scoped acquisition `get_next_experiment` fires (active
slot free, pending queue non-empty), then for every caller body — whether
it returns `Except.ok` or raises (`Except.error`) — the scope exits with
the acquired name inserted most-recent-first into the archived list and
the active slot cleared; and if more experiments are pending, the next
acquisition fires again on the resulting state. -/
theorem c2_scope_always_archives (r : ExperimentsRegistry)
    (body : String → Except String Unit) (n : String) (rest : List String)
    (hact : r.active_experiment_name = none)
    (hpend : r.pending_experiments = n :: rest) :
    r.get_next_experiment_scope body =
      some (body n,
        { r with
          active_experiment_name := none
          pending_experiments := rest
          archived_experiments := some n :: r.archived_experiments }) ∧
    (rest = [] ∨
      ({ r with
         active_experiment_name := none
         pending_experiments := rest
         archived_experiments := some n :: r.archived_experiments
         : ExperimentsRegistry }.get_next_experiment_scope body).isSome = true) := by
  constructor
  · simp [ExperimentsRegistry.get_next_experiment_scope, hact, hpend,
      ExperimentsRegistry.finish_active]
  · cases rest with
    | nil => exact Or.inl rfl
    | cons m rest2 =>
        exact Or.inr (by simp [ExperimentsRegistry.get_next_experiment_scope])

/-- Witness for C2 at a concrete registry with pending `[expA, expB]` and a
body that raises: the scope still archives `expA` and the next acquisition
fires. -/
theorem c2_witness :
    ((ExperimentsRegistry.init.add expA).add expB).get_next_experiment_scope
        (fun _ => Except.error "injected adapter failure") =
      some (Except.error "injected adapter failure",
        { (ExperimentsRegistry.init.add expA).add expB with
          active_experiment_name := none
          pending_experiments := ["expB"]
          archived_experiments := [some "expA"] }) ∧
    ("expB" :: ([] : List String) = [] ∨
      ({ (ExperimentsRegistry.init.add expA).add expB with
         active_experiment_name := none
         pending_experiments := ["expB"]
         archived_experiments := [some "expA"]
         : ExperimentsRegistry }.get_next_experiment_scope
          (fun _ => Except.error "injected adapter failure")).isSome = true) := by
  have h := c2_scope_always_archives ((ExperimentsRegistry.init.add expA).add expB)
    (fun _ => Except.error "injected adapter failure") "expA" ["expB"] rfl rfl
  simpa using h

/-- C4: `Director.set_new_experiment` never reaches the registry: the
`Experiment(...)` call it makes cannot be keyword-bound against
`Experiment.__init__` (it passes `users` and `sender`, which are not
parameters, and omits the required `archive_data`), so every call raises
`TypeError`.  Evaluated here at the concrete failing input
`("exp1", "user1", ["col1"], "/tmp/exp1.tgz")`. -/
theorem c4_set_new_experiment_raises :
    kwargsBindOk setNewExperimentCallKwargs experimentInitAcceptedKwargs
        experimentInitRequiredKwargs = false ∧
    Director.init.set_new_experiment "exp1" "user1" ["col1"] "/tmp/exp1.tgz" =
      Except.error
        "TypeError: Experiment.__init__ got an unexpected keyword argument users" :=
  ⟨rfl, rfl⟩

/-- C5 counterexample: the name `"x"` is not in `Director.init`'s registry,
yet `get_experiment_data` does not surface a typed failure — it returns
Python `None` (the internal `KeyError` is caught by the function's own
`except Exception` clause). -/
theorem c5_counterexample :
    Director.init.experiments_registry.containsExp "x" = false ∧
    ¬ (Director.init.get_experiment_data "x").isRaised = true := by
  exact ⟨rfl, by decide⟩

/-- C5 (amended): for a name not in the registry, `get_experiment_data`
returns `None` after catching its own `KeyError` (no error reaches the
caller); for a known name it returns that experiment's archive path. -/
theorem c5_get_experiment_data (d : Director) (n : String) :
    (d.experiments_registry.containsExp n = false →
      d.get_experiment_data n = GetDataResult.pyNone) ∧
    (∀ e, d.experiments_registry.getExp n = some e →
      d.get_experiment_data n = GetDataResult.found e.archive_path) := by
  constructor
  · intro h
    unfold Director.get_experiment_data
    unfold ExperimentsRegistry.containsExp at h
    cases hval : d.experiments_registry.getExp n with
    | none => rfl
    | some e =>
        unfold ExperimentsRegistry.getExp at hval
        rw [hval] at h
        simp at h
  · intro e he
    unfold Director.get_experiment_data
    rw [he]

/-- Witness for C5 (amended) at the concrete inputs `"x"` (unknown) and
`"expA"` (known, archive path `/tmp/expA.tgz`). -/
theorem c5_witness :
    Director.init.get_experiment_data "x" = GetDataResult.pyNone ∧
    directorWithPendingA.get_experiment_data "expA" =
      GetDataResult.found "/tmp/expA.tgz" :=
  ⟨(c5_get_experiment_data Director.init "x").1 rfl,
   (c5_get_experiment_data directorWithPendingA "expA").2 expA rfl⟩

/-- C8 counterexample: submitting the same name twice and then acquiring
reaches a registry state in which `"expE"` is simultaneously the active
experiment and still in the pending queue — the at-most-one invariant
fails on a reachable state. -/
theorem c8_counterexample :
    ¬ AtMostOne
        (runOps ExperimentsRegistry.init
          [ROp.add expE, ROp.add expE, ROp.enter]).1 := by
  intro h
  exact h.pending_not_active "expE" (by decide) (by decide)

/-- One well-formedness-preserving step: `add` of a fresh name, a scope
entry, or a scope exit each preserve `RegWF`. -/
theorem regWF_rstep (r : ExperimentsRegistry) (op : ROp) (hwf : RegWF r)
    (hop : match op with
           | ROp.add e => alookup r.dict e.name = none
           | ROp.enter => True
           | ROp.exit => True) :
    RegWF (rstep r op).1 := by
  cases op with
  | add e =>
      have hfresh : alookup r.dict e.name = none := hop
      have hnotpending : e.name ∉ r.pending_experiments := by
        intro hmem
        have := hwf.pendingKnown e.name hmem
        rw [hfresh] at this
        simp at this
      refine
        { nodupPending := ?_, pendingKnown := ?_, activeKnown := ?_,
          archivedKnown := ?_, atMostOne := ?_ }
      · simp only [rstep, ExperimentsRegistry.add]
        rw [List.nodup_append]
        exact ⟨hwf.nodupPending, List.nodup_singleton e.name,
          by simpa [List.disjoint_singleton] using hnotpending⟩
      · intro n hn
        simp only [rstep, ExperimentsRegistry.add, List.mem_append,
          List.mem_singleton] at hn
        cases hn with
        | inl hn =>
            exact alookup_aset_isSome r.dict e.name n e (hwf.pendingKnown n hn)
        | inr hn =>
            subst hn
            simp [rstep, ExperimentsRegistry.add, alookup_aset_self]
      · intro n hn
        simp only [rstep, ExperimentsRegistry.add] at hn
        exact alookup_aset_isSome r.dict e.name n e (hwf.activeKnown n hn)
      · intro n hn
        simp only [rstep, ExperimentsRegistry.add] at hn
        exact alookup_aset_isSome r.dict e.name n e (hwf.archivedKnown n hn)
      · refine
          { pending_not_active := ?_, pending_not_archived := ?_,
            active_not_archived := ?_ }
        · intro n hn
          simp only [rstep, ExperimentsRegistry.add, List.mem_append,
            List.mem_singleton] at hn ⊢
          cases hn with
          | inl hn => exact hwf.atMostOne.pending_not_active n hn
          | inr hn =>
              subst hn
              intro hactive
              have := hwf.activeKnown _ hactive
              rw [hfresh] at this
              simp at this
        · intro n hn
          simp only [rstep, ExperimentsRegistry.add, List.mem_append,
            List.mem_singleton] at hn ⊢
          cases hn with
          | inl hn => exact hwf.atMostOne.pending_not_archived n hn
          | inr hn =>
              subst hn
              intro harch
              have := hwf.archivedKnown _ harch
              rw [hfresh] at this
              simp at this
        · intro n hn
          simp only [rstep, ExperimentsRegistry.add] at hn ⊢
          exact hwf.atMostOne.active_not_archived n hn
  | enter =>
      cases hact : r.active_experiment_name with
      | some a =>
          have : (rstep r ROp.enter).1 = r := by simp [rstep, hact]
          rw [this]; exact hwf
      | none =>
          cases hpend : r.pending_experiments with
          | nil =>
              have : (rstep r ROp.enter).1 = r := by simp [rstep, hact, hpend]
              rw [this]; exact hwf
          | cons n rest =>
              have hstep : (rstep r ROp.enter).1 =
                  { r with active_experiment_name := some n,
                           pending_experiments := rest } := by
                simp [rstep, hact, hpend]
              rw [hstep]
              have hnodup : r.pending_experiments.Nodup := hwf.nodupPending
              rw [hpend] at hnodup
              have hhead : n ∉ rest := (List.nodup_cons.mp hnodup).1
              refine
                { nodupPending := (List.nodup_cons.mp hnodup).2,
                  pendingKnown := ?_, activeKnown := ?_, archivedKnown := ?_,
                  atMostOne := ?_ }
              · intro m hm
                exact hwf.pendingKnown m (by rw [hpend]; exact List.mem_cons_of_mem n hm)
              · intro m hm
                have hm2 : n = m := by simpa using hm
                rw [← hm2]
                exact hwf.pendingKnown n (by rw [hpend]; exact List.mem_cons_self n rest)
              · intro m hm
                exact hwf.archivedKnown m hm
              · refine
                  { pending_not_active := ?_, pending_not_archived := ?_,
                    active_not_archived := ?_ }
                · intro m hm
                  simp only [ne_eq, Option.some.injEq]
                  intro heq
                  subst heq
                  exact hhead hm
                · intro m hm
                  exact hwf.atMostOne.pending_not_archived m
                    (by rw [hpend]; exact List.mem_cons_of_mem n hm)
                · intro m hm
                  have hm2 : n = m := by simpa using hm
                  rw [← hm2]
                  exact hwf.atMostOne.pending_not_archived n
                    (by rw [hpend]; exact List.mem_cons_self n rest)
  | exit =>
      cases hact : r.active_experiment_name with
      | none =>
          have : (rstep r ROp.exit).1 = r := by simp [rstep, hact]
          rw [this]; exact hwf
      | some a =>
          have hstep : (rstep r ROp.exit).1 =
              { r with archived_experiments :=
                         some a :: r.archived_experiments,
                       active_experiment_name := none } := by
            simp [rstep, hact, ExperimentsRegistry.finish_active]
          rw [hstep]
          refine
            { nodupPending := hwf.nodupPending, pendingKnown := ?_,
              activeKnown := ?_, archivedKnown := ?_, atMostOne := ?_ }
          · intro m hm; exact hwf.pendingKnown m hm
          · intro m hm; simp at hm
          · intro m hm
            simp only [List.mem_cons, Option.some.injEq] at hm
            cases hm with
            | inl hm => rw [hm]; exact hwf.activeKnown a hact
            | inr hm => exact hwf.archivedKnown m hm
          · refine
              { pending_not_active := ?_, pending_not_archived := ?_,
                active_not_archived := ?_ }
            · intro m _; simp
            · intro m hm
              simp only [List.mem_cons, Option.some.injEq, not_or]
              constructor
              · intro heq
                rw [heq] at hm
                exact hwf.atMostOne.pending_not_active a hm hact
              · exact hwf.atMostOne.pending_not_archived m hm
            · intro m hm; simp at hm

/-- `RegWF` is preserved by any run whose `add`s are all fresh. -/
theorem regWF_runOps (ops : List ROp) :
    ∀ r : ExperimentsRegistry, RegWF r → FreshAdds r ops →
      RegWF (runOps r ops).1 := by
  induction ops with
  | nil => intro r hwf _; exact hwf
  | cons op ops ih =>
      intro r hwf hfresh
      have h1 : RegWF (rstep r op).1 := regWF_rstep r op hwf hfresh.1
      have h2 := ih (rstep r op).1 h1 hfresh.2
      simpa [runOps] using h2

/-- C8 (amended): in every registry state reachable from the empty registry
by `add`s of names not already known to the registry (no duplicate
submission) interleaved with scoped-acquisition entries and exits, each
experiment name appears in at most one of the pending queue, the active
slot and the archived list. -/
theorem c8_at_most_one (ops : List ROp)
    (hfresh : FreshAdds ExperimentsRegistry.init ops) :
    AtMostOne (runOps ExperimentsRegistry.init ops).1 := by
  have hwf : RegWF ExperimentsRegistry.init :=
    { nodupPending := List.nodup_nil
      pendingKnown := by intro n hn; simp [ExperimentsRegistry.init] at hn
      activeKnown := by intro n hn; simp [ExperimentsRegistry.init] at hn
      archivedKnown := by intro n hn; simp [ExperimentsRegistry.init] at hn
      atMostOne :=
        { pending_not_active := by intro n hn; simp [ExperimentsRegistry.init] at hn
          pending_not_archived := by intro n hn; simp [ExperimentsRegistry.init] at hn
          active_not_archived := by intro n hn; simp [ExperimentsRegistry.init] at hn } }
  exact (regWF_runOps ops ExperimentsRegistry.init hwf hfresh).atMostOne

/-- Witness for C8 (amended): a concrete distinct-name run — submit `expA`
and `expB`, acquire, archive, acquire again — satisfies the invariant. -/
theorem c8_witness :
    AtMostOne
      (runOps ExperimentsRegistry.init
        [ROp.add expA, ROp.add expB, ROp.enter, ROp.exit, ROp.enter]).1 :=
  c8_at_most_one [ROp.add expA, ROp.add expB, ROp.enter, ROp.exit, ROp.enter]
    ⟨by decide, by decide, trivial, trivial, trivial, trivial⟩

/-- Fanning an assignment out to the collaborators' queues touches only
`col_exp_queues`. -/
theorem pushToCollaborators_experiments_registry (ws : List String) :
    ∀ (d : Director) (n : String),
      (d.pushToCollaborators ws n).experiments_registry = d.experiments_registry := by
  induction ws with
  | nil => intro d n; rfl
  | cons w ws ih =>
      intro d n
      simpa [Director.pushToCollaborators, Director.pushAssignment] using
        ih (d.pushAssignment w n) n

/-- C1: when the control loop runs an experiment whose execution adapter
raises, the exception is swallowed inside `Experiment.start`'s
`try`/`except` (which logs it and marks the experiment `FAILED`), so the
loop iteration propagates no exception, the scoped acquisition still
archives the experiment (most-recent-first) and clears the active slot,
and the loop can proceed to the next pending experiment. -/
theorem c1_adapter_failure_contained (d : Director) (msg n : String)
    (rest : List String) (e : Experiment)
    (hact : d.experiments_registry.active_experiment_name = none)
    (hpend : d.experiments_registry.pending_experiments = n :: rest)
    (hdict : alookup d.experiments_registry.dict n = some e) :
    ∃ d2 : Director,
      d.loop_iteration (Except.error msg) = some (d2, none) ∧
      alookup d2.experiments_registry.dict n =
        some { e with status := Status.failed } ∧
      d2.experiments_registry.archived_experiments =
        some n :: d.experiments_registry.archived_experiments ∧
      d2.experiments_registry.active_experiment_name = none ∧
      d2.experiments_registry.pending_experiments = rest ∧
      (rest = [] ∨ (d2.loop_iteration (Except.error msg)).isSome = true) := by
  have hstart : e.start (Except.error msg) =
      ({ e with status := Status.failed }, none) := rfl
  refine ⟨((d.loop_iteration (Except.error msg)).getD (d, none)).1,
    ?_, ?_, ?_, ?_, ?_, ?_⟩
  · simp only [Director.loop_iteration, hact, hpend, hdict, hstart]
    rfl
  · simp only [Director.loop_iteration, hact, hpend, hdict, hstart]
    rw [pushToCollaborators_experiments_registry]
    simp [ExperimentsRegistry.finish_active, alookup_aset_self]
  · simp only [Director.loop_iteration, hact, hpend, hdict, hstart]
    rw [pushToCollaborators_experiments_registry]
    simp [ExperimentsRegistry.finish_active]
  · simp only [Director.loop_iteration, hact, hpend, hdict, hstart]
    rw [pushToCollaborators_experiments_registry]
    simp [ExperimentsRegistry.finish_active]
  · simp only [Director.loop_iteration, hact, hpend, hdict, hstart]
    rw [pushToCollaborators_experiments_registry]
    simp [ExperimentsRegistry.finish_active]
  · cases rest with
    | nil => exact Or.inl rfl
    | cons m rest2 =>
        refine Or.inr ?_
        simp only [Director.loop_iteration, hact, hpend, hdict, hstart]
        rw [pushToCollaborators_experiments_registry]
        simp only [ExperimentsRegistry.finish_active]
        cases halt : alookup (aset d.experiments_registry.dict n
            { e with status := Status.failed }) m <;>
          simp [Director.loop_iteration, halt, Experiment.start]

/-- Witness for C1: the concrete director with pending `expA` and an
adapter that raises `"boom"`. -/
theorem c1_witness :
    ∃ d2 : Director,
      directorWithPendingA.loop_iteration (Except.error "boom") =
        some (d2, none) ∧
      alookup d2.experiments_registry.dict "expA" =
        some { expA with status := Status.failed } ∧
      d2.experiments_registry.archived_experiments =
        some "expA" ::
          directorWithPendingA.experiments_registry.archived_experiments ∧
      d2.experiments_registry.active_experiment_name = none ∧
      d2.experiments_registry.pending_experiments = [] ∧
      (([] : List String) = [] ∨
        (d2.loop_iteration (Except.error "boom")).isSome = true) :=
  c1_adapter_failure_contained directorWithPendingA "boom" "expA" [] expA
    rfl rfl rfl

theorem update_envoy_status_isErr (d : Director) (w : String) (b : Bool)
    (now : Nat) :
    isErr (d.update_envoy_status w b now) = true ↔
      alookup d.envoy_registry w = none := by
  cases h : alookup d.envoy_registry w <;>
    simp [Director.update_envoy_status, h, isErr]

/-- An envoy is absent from the registry after a run exactly when it was
absent initially and never acknowledged during the run
(`update_envoy_status` never inserts: on an unknown name it raises). -/
theorem runEnvoyOps_absent (w : String) (ops : List EnvoyOp) :
    ∀ d : Director,
      alookup (runEnvoyOps d ops).envoy_registry w = none ↔
        (alookup d.envoy_registry w = none ∧ ackedIn w ops = false) := by
  induction ops with
  | nil => intro d; simp [runEnvoyOps, ackedIn]
  | cons op ops ih =>
      intro d
      cases op with
      | ack w2 t =>
          have h := ih (d.acknowledge_envoys w2 t).1
          simp only [runEnvoyOps]
          rw [h]
          by_cases hw : w = w2
          · subst hw
            simp [ackedIn, Director.acknowledge_envoys, alookup_aset_self]
          · simp [ackedIn, Director.acknowledge_envoys,
              alookup_aset_other _ _ _ _ hw, Ne.symm hw]
      | upd w2 b t =>
          cases h2 : alookup d.envoy_registry w2 with
          | none =>
              have h := ih d
              simp [runEnvoyOps, ackedIn, Director.update_envoy_status, h2, h]
          | some r =>
              simp only [runEnvoyOps, Director.update_envoy_status, h2]
              rw [ih _]
              by_cases hw : w = w2
              · subst hw
                simp [ackedIn, h2, alookup_aset_self]
              · simp [ackedIn, alookup_aset_other _ _ _ _ hw]

/-- After `acknowledge_envoys`, `update_envoy_status` succeeds: it updates
the heartbeat timestamp, the running flag and the validity window
(2 × the health-check period) and returns the health-check period. -/
theorem update_after_acknowledge (d : Director) (w : String) (b : Bool)
    (now t : Nat) :
    (d.acknowledge_envoys w t).1.update_envoy_status w b now =
      Except.ok
        ({ (d.acknowledge_envoys w t).1 with
           envoy_registry :=
             aset (d.acknowledge_envoys w t).1.envoy_registry w
               { is_online := true
                 is_experiment_running := b
                 last_updated := now
                 valid_duration := 2 * d.envoy_health_check_period } },
         d.envoy_health_check_period) ∧
    alookup
        (aset (d.acknowledge_envoys w t).1.envoy_registry w
          { is_online := true
            is_experiment_running := b
            last_updated := now
            valid_duration := 2 * d.envoy_health_check_period }) w =
      some { is_online := true
             is_experiment_running := b
             last_updated := now
             valid_duration := 2 * d.envoy_health_check_period } := by
  have h1 : alookup (d.acknowledge_envoys w t).1.envoy_registry w =
      some { is_online := true
             is_experiment_running := false
             last_updated := t
             valid_duration := 2 * d.envoy_health_check_period } :=
    alookup_aset_self _ _ _
  constructor
  · simp [Director.update_envoy_status, Director.acknowledge_envoys,
      alookup_aset_self]
  · exact alookup_aset_self _ _ _

/-- C6: over any sequence of acknowledge/heartbeat operations from a fresh
director, `update_envoy_status(w, ...)` raises `EnvoyNotFoundError` exactly
when `w` was never acknowledged in the sequence; and immediately after
`acknowledge_envoys(w, t)` the same call succeeds, rewriting the record's
heartbeat timestamp, running flag and validity window (2 × the
health-check period) and returning the configured health-check period. -/
theorem c6_update_status_notfound_iff (ops : List EnvoyOp) (w : String)
    (b : Bool) (now t : Nat) :
    (isErr ((runEnvoyOps Director.init ops).update_envoy_status w b now) = true ↔
      ackedIn w ops = false) ∧
    ((runEnvoyOps Director.init ops).acknowledge_envoys w t).1.update_envoy_status
        w b now =
      Except.ok
        ({ ((runEnvoyOps Director.init ops).acknowledge_envoys w t).1 with
           envoy_registry :=
             aset
               ((runEnvoyOps Director.init ops).acknowledge_envoys w t).1.envoy_registry
               w
               { is_online := true
                 is_experiment_running := b
                 last_updated := now
                 valid_duration :=
                   2 * (runEnvoyOps Director.init ops).envoy_health_check_period } },
         (runEnvoyOps Director.init ops).envoy_health_check_period) := by
  constructor
  · rw [update_envoy_status_isErr]
    have h := runEnvoyOps_absent w ops Director.init
    simpa [Director.init, alookup] using h
  · exact (update_after_acknowledge (runEnvoyOps Director.init ops) w b now t).1

/-- C10: `update_envoy_status` on a registered envoy writes exactly the
`is_experiment_running`, `valid_duration` and `last_updated` fields of the
record — `is_online` keeps whatever value the record had (the source line
`shard_info["is_online"]: True` is a type annotation, not an assignment) —
while `acknowledge_envoys` is the operation that sets `is_online` to
`True`. -/
theorem c10_update_keeps_is_online (d : Director) (w : String)
    (r : EnvoyRecord) (b : Bool) (now t : Nat)
    (hr : alookup d.envoy_registry w = some r) :
    d.update_envoy_status w b now =
      Except.ok
        ({ d with
           envoy_registry :=
             aset d.envoy_registry w
               { r with
                 is_experiment_running := b
                 valid_duration := 2 * d.envoy_health_check_period
                 last_updated := now } },
         d.envoy_health_check_period) ∧
    ({ r with
       is_experiment_running := b
       valid_duration := 2 * d.envoy_health_check_period
       last_updated := now } : EnvoyRecord).is_online = r.is_online ∧
    alookup ((d.acknowledge_envoys w t).1).envoy_registry w =
      some { is_online := true
             is_experiment_running := false
             last_updated := t
             valid_duration := 2 * d.envoy_health_check_period } := by
  refine ⟨?_, rfl, ?_⟩
  · simp [Director.update_envoy_status, hr]
  · exact alookup_aset_self _ _ _

/-- Witness for C10 at a concrete registered envoy whose record has
`is_online = false`: the heartbeat update leaves `is_online` at `false`. -/
theorem c10_witness :
    directorWithOfflineEnvoy.update_envoy_status "w1" false 30 =
      Except.ok
        ({ directorWithOfflineEnvoy with
           envoy_registry :=
             aset directorWithOfflineEnvoy.envoy_registry "w1"
               { is_online := false
                 is_experiment_running := false
                 last_updated := 30
                 valid_duration := 120 } },
         60) ∧
    ({ is_online := false
       is_experiment_running := false
       last_updated := 30
       valid_duration := 120 } : EnvoyRecord).is_online = false ∧
    alookup ((directorWithOfflineEnvoy.acknowledge_envoys "w1" 99).1).envoy_registry
        "w1" =
      some { is_online := true
             is_experiment_running := false
             last_updated := 99
             valid_duration := 120 } :=
  c10_update_keeps_is_online directorWithOfflineEnvoy "w1"
    { is_online := false, is_experiment_running := true, last_updated := 5,
      valid_duration := 120 } false 30 99 rfl

/-- C7: while a worker's recorded assignment points at an experiment whose
aggregator still has rounds to run — equivalently (under the spec's
coupling) whose status is `IN_PROGRESS` — `wait_experiment` returns that
same name through the fast path with the director state unchanged, so a
repeated call returns the same name again and no entry is consumed from
the worker's assignment queue. -/
theorem c7_wait_experiment_idempotent (d : Director) (w en : String)
    (ex : Experiment) (agg : Aggregator)
    (hassign : alookup d.col_exp w = some (some en))
    (hne : en ≠ "")
    (hex : d.experiments_registry.getExp en = some ex)
    (hagg : ex.aggregator = some agg)
    (hstatus : ex.status = Status.inProgress)
    (hcouple : AggregatorReflectsStatus ex agg) :
    d.wait_experiment w = WaitOutcome.returns en d ∧
    (agg.current_round < agg.rounds_to_train ↔ ex.status = Status.inProgress) := by
  have hlt : agg.current_round < agg.rounds_to_train := hcouple.mpr hstatus
  refine ⟨?_, hcouple⟩
  simp only [Director.wait_experiment, hassign, Option.getD_some]
  rw [if_neg hne]
  simp only [hex, hagg]
  rw [if_pos hlt]

/-- Witness for C7 at the concrete director whose worker `w1` is assigned
the in-progress experiment `e1` (aggregator at round 0 of 3). -/
theorem c7_witness :
    directorWithAssignment.wait_experiment "w1" =
      WaitOutcome.returns "e1" directorWithAssignment ∧
    ((Aggregator.mk 0 3).current_round < (Aggregator.mk 0 3).rounds_to_train ↔
      expRunning.status = Status.inProgress) :=
  c7_wait_experiment_idempotent directorWithAssignment "w1" "e1" expRunning
    (Aggregator.mk 0 3) rfl (by decide) rfl rfl rfl
    ⟨fun _ => rfl, fun _ => by decide⟩

/-- `wait_slow` characterized on the original state: it records `None` as
the worker's assignment and then blocks on an empty queue, or pops the
queue head and records it. -/
theorem wait_slow_spec (d : Director) (w : String) :
    d.wait_slow w =
      match d.queueOf w with
      | [] => WaitOutcome.blocked { d with col_exp := aset d.col_exp w none }
      | n :: rest =>
          WaitOutcome.returns n
            { d with
              col_exp := aset (aset d.col_exp w none) w (some n)
              col_exp_queues := aset d.col_exp_queues w rest } := rfl

/-- C9: for distinct workers `w ≠ w2`, a push onto `w2`'s assignment queue
does not touch `w`'s queue; a `wait_experiment(w)` call by a worker with no
current assignment blocks exactly while `w`'s own queue is empty, keeps
blocking after the push to `w2`, and the name it returns (once its own
queue is non-empty) is unchanged by pushes to `w2`. -/
theorem c9_cross_worker_isolation (d : Director) (w w2 n : String)
    (hne : w ≠ w2)
    (hnoassign : (alookup d.col_exp w).getD none = none) :
    (d.pushAssignment w2 n).queueOf w = d.queueOf w ∧
    ((d.wait_experiment w).isBlocked = true ↔ d.queueOf w = []) ∧
    ((d.wait_experiment w).isBlocked = true →
      ((d.pushAssignment w2 n).wait_experiment w).isBlocked = true) ∧
    ((d.pushAssignment w2 n).wait_experiment w).nameOf =
      (d.wait_experiment w).nameOf := by
  have hq : (d.pushAssignment w2 n).queueOf w = d.queueOf w := by
    unfold Director.pushAssignment Director.queueOf
    simp only
    rw [alookup_aset_other _ _ _ _ hne]
  have hnoassign2 :
      (alookup (d.pushAssignment w2 n).col_exp w).getD none = none := hnoassign
  have hw1 : d.wait_experiment w = d.wait_slow w := by
    simp only [Director.wait_experiment, hnoassign]
  have hw2 : (d.pushAssignment w2 n).wait_experiment w =
      (d.pushAssignment w2 n).wait_slow w := by
    simp only [Director.wait_experiment, hnoassign2]
  refine ⟨hq, ?_, ?_, ?_⟩
  · rw [hw1, wait_slow_spec]
    cases hqd : d.queueOf w with
    | nil => simp [WaitOutcome.isBlocked]
    | cons n0 rest => simp [WaitOutcome.isBlocked]
  · rw [hw1, hw2, wait_slow_spec, wait_slow_spec, hq]
    cases hqd : d.queueOf w with
    | nil => intro _; simp [WaitOutcome.isBlocked]
    | cons n0 rest => intro h; simp [WaitOutcome.isBlocked] at h
  · rw [hw1, hw2, wait_slow_spec, wait_slow_spec, hq]
    cases hqd : d.queueOf w with
    | nil => rfl
    | cons n0 rest => rfl

/-- Witness for C9: fresh director, workers `w1 ≠ w2`, a push of `e9` to
`w2`: `w1`'s queue stays empty, its wait call stays blocked, and the name
it would return is unchanged. -/
theorem c9_witness :
    (Director.init.pushAssignment "w2" "e9").queueOf "w1" =
      Director.init.queueOf "w1" ∧
    ((Director.init.wait_experiment "w1").isBlocked = true ↔
      Director.init.queueOf "w1" = []) ∧
    ((Director.init.wait_experiment "w1").isBlocked = true →
      ((Director.init.pushAssignment "w2" "e9").wait_experiment "w1").isBlocked =
        true) ∧
    ((Director.init.pushAssignment "w2" "e9").wait_experiment "w1").nameOf =
      (Director.init.wait_experiment "w1").nameOf :=
  c9_cross_worker_isolation Director.init "w1" "w2" "e9" (by decide) rfl

end OpenFLDirector
